import Mathlib

/-!
Shallow embedding of the pydrifter drift-test core (src/pydrifter) in Lean 4.

Conventions used throughout:
- Python/numpy floats are modelled as exact rationals; float literals such as
  0.0001 become the rational 1/10000.
- numpy arrays and pandas Series become `List ℚ`.
- Library routines whose numeric output is transcendental or random
  (math.log, sqrt inside ndarray.std, pandas Series.quantile,
  numpy.histogram_bin_edges with the doane rule, scipy.stats.ks_2samp,
  scipy.stats.mannwhitneyu, scipy.stats.ttest_ind,
  scipy.stats.wasserstein_distance, pendulum.now, numpy.random.choice)
  are oracles: the embedding is parametric in them (`NumpyEnv`, draw
  functions), and theorems hold for every oracle.
- Fallible Python code returns `Except PyError`.
-/

namespace Pydrifter

/-- A Python exception, as surfaced by the statistical-test call paths. -/
inductive PyError where
  | typeError (msg : String)
  | valueError (msg : String)
deriving DecidableEq

/-- One cell of the report dataframe: a float or a string sentinel
(the tests put the string "-" in the p_value column when no p-value exists). -/
inductive Cell where
  | num (q : ℚ)
  | str (s : String)
deriving DecidableEq

/-- One row of the single-row pandas DataFrame each test builds
(kl_divergence.py, kstest.py, mannwhitney.py, wasserstein.py all list
exactly these columns). -/
structure ReportRow where
  test_datetime : String
  feature_name : String
  feature_type : String
  control_mean : ℚ
  treatment_mean : ℚ
  control_std : ℚ
  treatment_std : ℚ
  test_name : String
  p_value : Cell
  statistics : ℚ
  conclusion : String
deriving DecidableEq

/-- src/pydrifter/base_classes/base_statistics.py, StatTestResult:
a dataclass with fields dataframe, value, and conclusion, where conclusion
defaults to None (here: constructors that omit it pass `none`). -/
structure StatTestResult where
  dataframe : ReportRow
  value : ℚ
  conclusion : Option String
deriving DecidableEq

/-- The keyword arguments accepted by the StatTestResult dataclass
initializer (its three declared fields). -/
def statTestResultFields : List String := ["dataframe", "value", "conclusion"]

/-- Field names declared on the MannWhitney dataclass (mannwhitney.py):
note there is no q field. -/
def mannWhitneyFields : List String :=
  ["control_data", "treatment_data", "feature_name", "alpha"]

/-- Field names declared on the KolmogorovSmirnov dataclass (kstest.py):
q is declared (with default False). -/
def kolmogorovSmirnovFields : List String :=
  ["control_data", "treatment_data", "feature_name", "alpha", "q"]

/-- A Python dataclass-generated initializer accepts exactly the declared
field names as keywords; an unknown keyword raises TypeError. -/
def dataclassInit (fields : List String) (kwargs : List String) : Except PyError Unit :=
  match kwargs.find? (fun k => !(fields.contains k)) with
  | some k => .error (.typeError ("init got an unexpected keyword argument " ++ k))
  | none => .ok ()

/-- The Python value `q: bool | float` used by the tests: either the
boolean default False or a float quantile; `if self.q:` tests truthiness. -/
inductive QFlag where
  | bool (b : Bool)
  | val (x : ℚ)
deriving DecidableEq

/-- Python truthiness of the q flag: False and 0.0 are falsy. -/
def QFlag.truthy : QFlag → Bool
  | .bool b => b
  | .val x => !(x == 0)

/-- The numeric value of the q flag when used as a quantile argument. -/
def QFlag.toRat : QFlag → ℚ
  | .bool b => if b then 1 else 0
  | .val x => x

/-- Oracles for the external numeric library routines the tests call.
Every theorem below is universally quantified over this environment. -/
structure NumpyEnv where
  sqrt : ℚ → ℚ
  log : ℚ → ℚ
  quantile : List ℚ → ℚ → ℚ
  doaneEdges : List ℚ → List ℚ
  ks2samp : List ℚ → List ℚ → ℚ × ℚ
  mannwhitneyu : List ℚ → List ℚ → ℚ × ℚ
  ttestInd : List ℚ → List ℚ → Bool → ℚ × ℚ
  wassersteinDistance : List ℚ → List ℚ → ℚ
  now : String

/-- ndarray.mean(): sum divided by length. -/
def npMean (xs : List ℚ) : ℚ := xs.sum / (xs.length : ℚ)

/-- ndarray.var(): population variance, mean of squared deviations. -/
def npVar (xs : List ℚ) : ℚ :=
  ((xs.map (fun x => (x - npMean xs) ^ 2)).sum) / (xs.length : ℚ)

/-- The mean/std/var dictionary returned by calculate_statistics. -/
structure SampleStats where
  mean : ℚ
  std : ℚ
  var : ℚ
deriving DecidableEq

/-- src/pydrifter/statistics.py, calculate_statistics: mean, population
standard deviation (std = sqrt of var, via the sqrt oracle), variance. -/
def calculate_statistics (sqrt : ℚ → ℚ) (xs : List ℚ) : SampleStats :=
  { mean := npMean xs, std := sqrt (npVar xs), var := npVar xs }

/-- Python min over a nonempty sequence (none on an empty one, where
CPython raises ValueError). -/
def listMin : List ℚ → Option ℚ
  | [] => none
  | x :: xs => some (xs.foldl min x)

/-- numpy.histogram bin membership on an explicit edge list: bin i is
half-open from edge i to edge i+1, except the last bin which is closed. -/
def inBin (edges : List ℚ) (i : ℕ) (x : ℚ) : Bool :=
  decide (edges.getD i 0 ≤ x) &&
    (if i + 2 = edges.length then decide (x ≤ edges.getD (i + 1) 0)
     else decide (x < edges.getD (i + 1) 0))

/-- numpy.histogram(data, bins=edges)[0]: per-bin counts. -/
def npHistogram (data edges : List ℚ) : List ℕ :=
  (List.range (edges.length - 1)).map
    (fun i => (data.filter (fun x => inBin edges i x)).length)

/-- np.histogram(data, bins)[0] / len(data): the probability-mass vector of
one sample on the shared edges. -/
def histPercents (data edges : List ℚ) : List ℚ :=
  (npHistogram data edges).map (fun (c : ℕ) => (c : ℚ) / (data.length : ℚ))

/-- The replacement value the smoothing block writes into zero bins, as a
function of the smallest nonzero mass m: m/10^6 when m is at most 0.0001,
and 0.0001 otherwise. -/
def smoothFillValue (m : ℚ) : ℚ :=
  if m ≤ 1 / 10000 then m / 10 ^ 6 else 1 / 10000

/-- The np.place zero-smoothing block that appears verbatim in both
KLDivergence.call and PSI.call: every zero entry of the mass vector is
replaced by min(nonzero)/10^6 when min(nonzero) is at most 0.0001 and by
0.0001 otherwise; min of an empty selection raises ValueError. -/
def smoothZeros (v : List ℚ) : Except PyError (List ℚ) :=
  match listMin (v.filter (fun x => decide (x ≠ 0))) with
  | none => .error (.valueError "min arg is an empty sequence")
  | some m =>
    .ok (v.map (fun x => if x = 0 then smoothFillValue m else x))

/-- pd.Series quantile trimming used by KLDivergence, PSI and Wasserstein:
keep values strictly below the quantile of the same sample. -/
def trimBelowQuantile (env : NumpyEnv) (xs : List ℚ) (q : ℚ) : List ℚ :=
  xs.filter (fun x => decide (x < env.quantile xs q))

/-- The sample a divergence-family test actually histograms: the trimmed
sample when the q flag is truthy, the raw sample otherwise. -/
def usedData (env : NumpyEnv) (xs : List ℚ) (q : QFlag) : List ℚ :=
  if q.truthy then trimBelowQuantile env xs q.toRat else xs

/-- np.histogram_bin_edges over the pooled pd.concat of the two samples
(control first), via the doane-rule oracle. -/
def sharedEdges (env : NumpyEnv) (c t : List ℚ) : List ℚ :=
  env.doaneEdges (c ++ t)

/-- scipy.stats.entropy(pk, qk): both vectors are normalized to sum 1 and
the elementwise rel_entr is summed (zero numerator entries contribute 0). -/
def scipyEntropy (log : ℚ → ℚ) (pk qk : List ℚ) : ℚ :=
  let pn := pk.map (fun x => x / pk.sum)
  let qn := qk.map (fun x => x / qk.sum)
  ((pn.zip qn).map (fun a => if a.1 = 0 then 0 else a.1 * log (a.1 / a.2))).sum

/-- Modelled from the spec: the dataframe_report helper that PSI.call and
TTest.call invoke on self is repository code not present under src (only its
call sites are). Per section 3 of the spec a ResultRecord carries feature
name and type, the two means and stds, the test name, a p_value that is a
not-applicable sentinel for tests without one, the statistic and the OK or
FAILED conclusion; the quantile_cut argument the callers pass is recorded
nowhere in that field set. -/
def dataframe_report (now featureName featureType : String)
    (controlMean treatmentMean controlStd treatmentStd : ℚ)
    (quantileCut : Option ℚ) (testName : String)
    (statistics : ℚ) (conclusion : String) : ReportRow :=
  { test_datetime := now
    feature_name := featureName
    feature_type := featureType
    control_mean := controlMean
    treatment_mean := treatmentMean
    control_std := controlStd
    treatment_std := treatmentStd
    test_name := testName
    p_value := Cell.str "-"
    statistics := statistics
    conclusion := conclusion }

/-- src/pydrifter/calculations/stat_tests/kl_divergence.py,
KLDivergence.call: optional per-sample quantile trimming, shared doane
edges over the pooled data, per-sample mass vectors, the zero-smoothing
block on each, statistic entropy(reference, current), conclusion OK iff
the statistic is below border_value; the summary statistics in the report
are always taken from the raw samples; StatTestResult is built without a
conclusion argument (so it carries None). -/
def klDivergenceCall (env : NumpyEnv) (control treatment : List ℚ)
    (featureName : String) (border_value : ℚ) (q : QFlag) :
    Except PyError StatTestResult :=
  let cData := usedData env control q
  let tData := usedData env treatment q
  let edges := sharedEdges env cData tData
  match smoothZeros (histPercents cData edges) with
  | .error e => .error e
  | .ok referencePercents =>
    match smoothZeros (histPercents tData edges) with
    | .error e => .error e
    | .ok currentPercents =>
      let klDivergence := scipyEntropy env.log referencePercents currentPercents
      let conclusion := if klDivergence < border_value then "OK" else "FAILED"
      let cStats := calculate_statistics env.sqrt control
      let tStats := calculate_statistics env.sqrt treatment
      .ok
        { dataframe :=
            { test_datetime := env.now
              feature_name := featureName
              feature_type := "numerical"
              control_mean := cStats.mean
              treatment_mean := tStats.mean
              control_std := cStats.std
              treatment_std := tStats.std
              test_name := "KL Divergence"
              p_value := Cell.str "-"
              statistics := klDivergence
              conclusion := conclusion }
          value := klDivergence
          conclusion := none }

/-- src/pydrifter/calculations/stat_tests/psi.py, PSI.call: same trimming,
binning and smoothing pipeline as KL Divergence, except that the summary
statistics are taken from the trimmed samples when q is truthy; statistic
is the sum of (reference - current) * log(reference / current); conclusion
OK iff the statistic is below 0.1; the report row goes through
dataframe_report and the conclusion is passed to StatTestResult. -/
def psiCall (env : NumpyEnv) (control treatment : List ℚ)
    (featureName : String) (q : QFlag) : Except PyError StatTestResult :=
  let cData := usedData env control q
  let tData := usedData env treatment q
  let cStats := calculate_statistics env.sqrt cData
  let tStats := calculate_statistics env.sqrt tData
  let edges := sharedEdges env cData tData
  match smoothZeros (histPercents cData edges) with
  | .error e => .error e
  | .ok referencePercents =>
    match smoothZeros (histPercents tData edges) with
    | .error e => .error e
    | .ok currentPercents =>
      let psiValue :=
        ((referencePercents.zip currentPercents).map
          (fun p => (p.1 - p.2) * env.log (p.1 / p.2))).sum
      let conclusion := if psiValue < 1 / 10 then "OK" else "FAILED"
      .ok
        { dataframe :=
            dataframe_report env.now featureName "numerical"
              cStats.mean tStats.mean cStats.std tStats.std
              (if q.truthy then some q.toRat else none)
              "Population Stability Index" psiValue conclusion
          value := psiValue
          conclusion := some conclusion }

/-- src/pydrifter/calculations/stat_tests/kstest.py,
KolmogorovSmirnov.call: ks_2samp on the two raw samples (the declared q
field is never read), conclusion OK iff p_value is at least alpha;
StatTestResult is built from the row and the p-value without a conclusion
argument (so it carries None). -/
def kolmogorovSmirnovCall (env : NumpyEnv) (control treatment : List ℚ)
    (featureName : String) (alpha : ℚ) (q : QFlag) : StatTestResult :=
  let cStats := calculate_statistics env.sqrt control
  let tStats := calculate_statistics env.sqrt treatment
  let sp := env.ks2samp control treatment
  let resultStatus := if sp.2 ≥ alpha then "OK" else "FAILED"
  { dataframe :=
      { test_datetime := env.now
        feature_name := featureName
        feature_type := "numerical"
        control_mean := cStats.mean
        treatment_mean := tStats.mean
        control_std := cStats.std
        treatment_std := tStats.std
        test_name := "Kolmogorov-Smirnov test"
        p_value := Cell.num sp.2
        statistics := sp.1
        conclusion := resultStatus }
    value := sp.2
    conclusion := none }

/-- src/pydrifter/calculations/stat_tests/mannwhitney.py: the single-row
dataframe MannWhitney.call builds before its return statement:
mannwhitneyu on the two raw samples, conclusion OK iff p_value is at
least alpha. -/
def mannWhitneyFrame (env : NumpyEnv) (control treatment : List ℚ)
    (featureName : String) (alpha : ℚ) : ReportRow :=
  let cStats := calculate_statistics env.sqrt control
  let tStats := calculate_statistics env.sqrt treatment
  let sp := env.mannwhitneyu control treatment
  let resultStatus := if sp.2 ≥ alpha then "OK" else "FAILED"
  { test_datetime := env.now
    feature_name := featureName
    feature_type := "numerical"
    control_mean := cStats.mean
    treatment_mean := tStats.mean
    control_std := cStats.std
    treatment_std := tStats.std
    test_name := "Mann-Whitney test"
    p_value := Cell.num sp.2
    statistics := sp.1
    conclusion := resultStatus }

/-- src/pydrifter/calculations/stat_tests/mannwhitney.py,
MannWhitney.call: after building the dataframe, the return statement is
StatTestResult(statistics_result=statistics_result); the StatTestResult
dataclass declares no field of that name, so the dataclass initializer
raises TypeError and the call never returns a result. -/
def mannWhitneyCall (env : NumpyEnv) (control treatment : List ℚ)
    (featureName : String) (alpha : ℚ) : Except PyError StatTestResult :=
  let row := mannWhitneyFrame env control treatment featureName alpha
  if statTestResultFields.contains "statistics_result" then
    .ok { dataframe := row, value := 0, conclusion := none }
  else
    .error (.typeError
      "init got an unexpected keyword argument statistics_result")

/-- src/pydrifter/statistics.py line 9 (and the identical resample count
inside each comprehension element): int(len(data) * 0.2). For every sample
size below 10^15 the float product len * 0.2 truncates to the natural
division len / 5, because the relative rounding error of the product is far
too small to cross an integer. -/
def bootstrapDrawCount (n : ℕ) : ℕ := n / 5

/-- np.random.choice(data, k): k draws with replacement, modelled by an
index oracle (indices are reduced modulo the sample size). -/
def npChoice (draw : ℕ → ℕ) (data : List ℚ) (k : ℕ) : List ℚ :=
  (List.range k).map (fun j => data.getD (draw j % data.length) 0)

/-- src/pydrifter/statistics.py, mean_bootstrap: a list of size resample
means, each the mean of int(len(data) * 0.2) draws with replacement (the
Python default for size is 10000; call sites here pass it explicitly). -/
def mean_bootstrap (rng : ℕ → ℕ → ℕ) (data : List ℚ) (size : ℕ) : List ℚ :=
  (List.range size).map
    (fun i => npMean (npChoice (rng i) data (bootstrapDrawCount data.length)))

/-- Modelled from the spec: the per-resample draw count the spec states,
round(0.2 n). Python rounds half to even, but n/5 never has fractional part
exactly one half, so rounding to the nearest integer is unambiguous. -/
def claimedDrawCount (n : ℕ) : ℕ := (round ((n : ℚ) / 5)).toNat

/-- src/pydrifter/calculations/stat_tests/ttest.py, TTest.call: ttest_ind
on the two bootstrap-mean distributions (equal_var = var flag), conclusion
OK iff p_value is at least alpha; the report row goes through
dataframe_report and the conclusion is passed to StatTestResult. -/
def ttestCall (env : NumpyEnv) (rngC rngT : ℕ → ℕ → ℕ)
    (control treatment : List ℚ) (varFlag : Bool) (alpha : ℚ)
    (featureName : String) (q : QFlag) : StatTestResult :=
  let sp := env.ttestInd (mean_bootstrap rngC control 10000)
    (mean_bootstrap rngT treatment 10000) varFlag
  let conclusion := if sp.2 ≥ alpha then "OK" else "FAILED"
  let cStats := calculate_statistics env.sqrt control
  let tStats := calculate_statistics env.sqrt treatment
  { dataframe :=
      dataframe_report env.now featureName "numerical"
        cStats.mean tStats.mean cStats.std tStats.std
        (if q.truthy then some q.toRat else none)
        "Welch test (sample mean)" sp.1 conclusion
    value := sp.2
    conclusion := some conclusion }

/-- src/pydrifter/calculations/stat_tests/wasserstein.py, Wasserstein.call:
optional per-sample quantile trimming, wasserstein_distance on the
(possibly trimmed) samples, normalized by max(control std, 0.001) where the
std is that of the (possibly trimmed) control sample; conclusion OK iff the
normalized distance is below 0.1; conclusion is passed to StatTestResult. -/
def wassersteinCall (env : NumpyEnv) (control treatment : List ℚ)
    (featureName : String) (q : QFlag) : StatTestResult :=
  let cData := usedData env control q
  let tData := usedData env treatment q
  let cStats := calculate_statistics env.sqrt cData
  let tStats := calculate_statistics env.sqrt tData
  let wdResult := env.wassersteinDistance cData tData
  let norm := max cStats.std (1 / 1000)
  let wdResultNorm := wdResult / norm
  let conclusion := if wdResultNorm < 1 / 10 then "OK" else "FAILED"
  { dataframe :=
      { test_datetime := env.now
        feature_name := featureName
        feature_type := "numerical"
        control_mean := cStats.mean
        treatment_mean := tStats.mean
        control_std := cStats.std
        treatment_std := tStats.std
        test_name := "Wasserstein distance"
        p_value := Cell.str "-"
        statistics := wdResultNorm
        conclusion := conclusion }
    value := wdResultNorm
    conclusion := some conclusion }

/-- A concrete oracle environment used by the closed witness and
counterexample theorems. -/
def env0 : NumpyEnv :=
  { sqrt := fun _ => 0
    log := fun _ => 0
    quantile := fun _ _ => 0
    doaneEdges := fun _ => [0, 1]
    ks2samp := fun _ _ => (0, 1)
    mannwhitneyu := fun _ _ => (0, 1)
    ttestInd := fun _ _ _ => (0, 1)
    wassersteinDistance := fun _ _ => 0
    now := "2025-01-01 00:00:00" }

/-- A store of numpy arrays, for stating which arrays an in-place numpy
operation can touch: array identities are indices into the store. -/
structure Heap where
  arrays : List (List ℚ)

/-- Read the array stored under an id. -/
def Heap.get (h : Heap) (i : ℕ) : List ℚ := h.arrays.getD i []

/-- Allocate a fresh array (numpy operations with an array result, such as
histogram and the division by len, return newly allocated arrays). -/
def Heap.alloc (h : Heap) (v : List ℚ) : Heap × ℕ :=
  ({ arrays := h.arrays ++ [v] }, h.arrays.length)

/-- Overwrite the array stored under an id in place (what np.place does to
its first argument). -/
def Heap.mutate (h : Heap) (i : ℕ) (v : List ℚ) : Heap :=
  { arrays := h.arrays.set i v }

/-- The np.place smoothing block acting in place on the array stored under
id i, with the same zero-replacement policy as smoothZeros. -/
def smoothZerosInPlace (h : Heap) (i : ℕ) : Except PyError Heap :=
  match smoothZeros (h.get i) with
  | .error e => .error e
  | .ok w => .ok (h.mutate i w)

/-- The allocations KLDivergence.call performs before smoothing: the
optionally trimmed copies of the two samples and the two histogram mass
vectors, all freshly allocated arrays; returns the grown store and the ids
of the two mass vectors. -/
def klHeapStage (env : NumpyEnv) (h : Heap) (cId tId : ℕ) (q : QFlag) :
    Heap × ℕ × ℕ :=
  let p1 := h.alloc (usedData env (h.get cId) q)
  let p2 := p1.1.alloc (usedData env (h.get tId) q)
  let h2 := p2.1
  let cData := h2.get p1.2
  let tData := h2.get p2.2
  let edges := sharedEdges env cData tData
  let p3 := h2.alloc (histPercents cData edges)
  let p4 := p3.1.alloc (histPercents tData edges)
  (p4.1, p3.2, p4.2)

/-- KLDivergence.call in heap-passing form (shared with PSI.call, whose
binning and smoothing lines are identical): the two samples live in the
store under cId and tId; the trimmed copies and the mass vectors are
freshly allocated, and np.place mutates only the mass-vector ids. Returns
the store as left at the point of return or of the raise. -/
def klCallHeap (env : NumpyEnv) (h : Heap) (cId tId : ℕ) (q : QFlag) :
    Heap × Except PyError ℚ :=
  match smoothZerosInPlace (klHeapStage env h cId tId q).1
      (klHeapStage env h cId tId q).2.1 with
  | .error e => ((klHeapStage env h cId tId q).1, .error e)
  | .ok h5 =>
    match smoothZerosInPlace h5 (klHeapStage env h cId tId q).2.2 with
    | .error e => (h5, .error e)
    | .ok h6 =>
      (h6, .ok (scipyEntropy env.log
        (h6.get (klHeapStage env h cId tId q).2.1)
        (h6.get (klHeapStage env h cId tId q).2.2)))

/-- Wasserstein.call in heap-passing form: the trimmed copies are freshly
allocated and nothing in the store is ever mutated. -/
def wassersteinCallHeap (env : NumpyEnv) (h : Heap) (cId tId : ℕ)
    (q : QFlag) : Heap × ℚ :=
  let control := h.get cId
  let treatment := h.get tId
  let p1 := h.alloc (usedData env control q)
  let p2 := p1.1.alloc (usedData env treatment q)
  let h2 := p2.1
  let cData := h2.get p1.2
  let tData := h2.get p2.2
  let norm := max (calculate_statistics env.sqrt cData).std (1 / 1000)
  (h2, env.wassersteinDistance cData tData / norm)

/-! Helper lemmas about the numeric utilities. -/

theorem foldlMin_spec (l : List ℚ) : ∀ x : ℚ,
    (l.foldl min x = x ∨ l.foldl min x ∈ l) ∧ l.foldl min x ≤ x ∧
      ∀ y ∈ l, l.foldl min x ≤ y := by
  induction l with
  | nil =>
    intro x
    exact ⟨Or.inl rfl, le_refl x, by intro y hy; cases hy⟩
  | cons a t ih =>
    intro x
    have h := ih (min x a)
    refine ⟨?_, ?_, ?_⟩
    · rcases h.1 with heq | hmem
      · rw [List.foldl_cons, heq]
        rcases min_choice x a with h1 | h1
        · exact Or.inl h1
        · exact Or.inr (by rw [h1]; exact List.mem_cons_self a t)
      · exact Or.inr (List.mem_cons_of_mem a hmem)
    · exact le_trans h.2.1 (min_le_left x a)
    · intro y hy
      rcases List.mem_cons.mp hy with rfl | hyt
      · exact le_trans h.2.1 (min_le_right x y)
      · exact h.2.2 y hyt

theorem listMin_spec (l : List ℚ) (m : ℚ) (h : listMin l = some m) :
    m ∈ l ∧ ∀ y ∈ l, m ≤ y := by
  cases l with
  | nil => cases h
  | cons a t =>
    have hm : t.foldl min a = m := by
      simpa [listMin] using h
    have hs := foldlMin_spec t a
    constructor
    · rcases hs.1 with heq | hmem
      · rw [← hm, heq]; exact List.mem_cons_self a t
      · rw [← hm]; exact List.mem_cons_of_mem a hmem
    · intro y hy
      rcases List.mem_cons.mp hy with rfl | hyt
      · rw [← hm]; exact hs.2.1
      · rw [← hm]; exact hs.2.2 y hyt

theorem listMin_isSome (l : List ℚ) (h : l ≠ []) : ∃ m, listMin l = some m := by
  cases l with
  | nil => exact absurd rfl h
  | cons a t => exact ⟨t.foldl min a, rfl⟩

/-- The OK or FAILED string chosen by comparing a p-value to alpha. -/
theorem geConclusion_spec (p a : ℚ) :
    ((if p ≥ a then "OK" else "FAILED") = "OK" ↔ p ≥ a) ∧
      ((if p ≥ a then "OK" else "FAILED") = "FAILED" ↔ ¬p ≥ a) := by
  by_cases h : p ≥ a <;> simp [h]

/-- The OK or FAILED string chosen by comparing a statistic to a border. -/
theorem ltConclusion_spec (v t : ℚ) :
    ((if v < t then "OK" else "FAILED") = "OK" ↔ v < t) ∧
      ((if v < t then "OK" else "FAILED") = "FAILED" ↔ ¬v < t) := by
  by_cases h : v < t <;> simp [h]

theorem sum_map_add_nat (l : List ℕ) (f g : ℕ → ℕ) :
    (l.map (fun i => f i + g i)).sum = (l.map f).sum + (l.map g).sum := by
  induction l with
  | nil => simp
  | cons a t ih => simp [ih]; omega

theorem sum_map_indicator (l : List ℕ) (p : ℕ → Bool) :
    (l.map (fun i => if p i then 1 else 0)).sum = (l.filter p).length := by
  induction l with
  | nil => simp
  | cons a t ih =>
    by_cases h : p a <;> simp [List.filter_cons, h, ih] <;> omega

theorem sum_map_one (l : List ℚ) (f : ℚ → ℕ) (h : ∀ x ∈ l, f x = 1) :
    (l.map f).sum = l.length := by
  induction l with
  | nil => simp
  | cons a t ih =>
    have ha := h a (List.mem_cons_self a t)
    have ht : ∀ x ∈ t, f x = 1 := fun x hx => h x (List.mem_cons_of_mem a hx)
    simp [ha, ih ht]
    omega

theorem sum_map_natCast_div (l : List ℕ) (n : ℚ) :
    (l.map (fun (c : ℕ) => (c : ℚ) / n)).sum = ((l.sum : ℕ) : ℚ) / n := by
  induction l with
  | nil => simp
  | cons a t ih =>
    simp only [List.map_cons, List.sum_cons, ih]
    push_cast
    rw [add_div]

/-! Histogram partition: on sorted covering edges, every observation falls
in exactly one numpy bin, so the bin counts sum to the sample size. -/

theorem sorted_head_le (y : ℚ) (l : List ℚ)
    (h : (y :: l).Sorted (fun a b => a ≤ b)) :
    ∀ i, i < l.length → y ≤ l.getD i 0 := by
  intro i hi
  have h1 : ∀ b ∈ l, y ≤ b := (List.sorted_cons.mp h).1
  rw [List.getD_eq_get l 0 hi]
  exact h1 _ (l.get_mem i hi)

theorem sorted_getD_zero_le (l : List ℚ) (hs : l.Sorted (fun a b => a ≤ b)) :
    ∀ i, i < l.length → l.getD 0 0 ≤ l.getD i 0 := by
  intro i hi
  cases l with
  | nil => simp at hi
  | cons y t =>
    cases i with
    | zero => simp
    | succ j =>
      rw [List.getD_cons_succ, List.getD_cons_zero]
      exact sorted_head_le y t hs j (by simpa using hi)

theorem inBin_shift (e0 : ℚ) (rest : List ℚ) (i : ℕ) (x : ℚ) :
    inBin (e0 :: rest) (i + 1) x = inBin rest i x := by
  have hcond : (i + 1 + 2 = (e0 :: rest).length) = (i + 2 = rest.length) := by
    simp only [List.length_cons]
    exact propext ⟨fun h => by omega, fun h => by omega⟩
  simp only [inBin, List.getD_cons_succ, hcond]

theorem inBin_zero (e0 e1 : ℚ) (rest2 : List ℚ) (x : ℚ) :
    inBin (e0 :: e1 :: rest2) 0 x =
      (decide (e0 ≤ x) &&
        (if rest2 = [] then decide (x ≤ e1) else decide (x < e1))) := by
  rcases rest2 with _ | ⟨a, t⟩
  · simp [inBin]
  · have hne : ¬(0 + 2 = (e0 :: e1 :: a :: t).length) := by
      simp only [List.length_cons]
      omega
    simp [inBin, hne]

theorem binsHit_eq_one (edges : List ℚ) :
    edges.Sorted (fun a b => a ≤ b) → 2 ≤ edges.length → ∀ x : ℚ,
      edges.getD 0 0 ≤ x → x ≤ edges.getD (edges.length - 1) 0 →
      ((List.range (edges.length - 1)).filter
        (fun i => inBin edges i x)).length = 1 := by
  induction edges with
  | nil => intro _ h2 _ _ _; simp at h2
  | cons e0 rest ih =>
    intro hsort hlen x hlo hhi
    match rest, ih, hsort, hlen, hlo, hhi with
    | [], _, _, hlen, _, _ => simp at hlen
    | [e1], _, hsort, _, hlo, hhi =>
      have hx0 : e0 ≤ x := by simpa using hlo
      have hx1 : x ≤ e1 := by simpa using hhi
      simp [inBin_zero, List.filter, hx0, hx1]
    | e1 :: e2 :: tl, ih, hsort, _, hlo, hhi =>
      have hx0 : e0 ≤ x := by simpa using hlo
      have hsrest : (e1 :: e2 :: tl).Sorted (fun a b => a ≤ b) :=
        (List.sorted_cons.mp hsort).2
      have hxlast : x ≤ (e1 :: e2 :: tl).getD ((e1 :: e2 :: tl).length - 1) 0 := by
        have : (e0 :: e1 :: e2 :: tl).length - 1 = ((e1 :: e2 :: tl).length - 1) + 1 := by
          simp
        rw [this, List.getD_cons_succ] at hhi
        exact hhi
      have hk : (e0 :: e1 :: e2 :: tl).length - 1 = ((e1 :: e2 :: tl).length - 1) + 1 := by
        simp
      by_cases hx : x < e1
      · -- x lands in bin 0 and in no later bin
        have hbin0 : inBin (e0 :: e1 :: e2 :: tl) 0 x = true := by
          simp [inBin_zero, hx0, hx]
        have hlater : ∀ i, i < (e1 :: e2 :: tl).length - 1 →
            inBin (e0 :: e1 :: e2 :: tl) (i + 1) x = false := by
          intro i hi
          have hle : e1 ≤ (e1 :: e2 :: tl).getD i 0 := by
            have := sorted_getD_zero_le (e1 :: e2 :: tl) hsrest i (by
              simp only [List.length_cons] at hi ⊢
              omega)
            simpa using this
          have hnot : ¬((e1 :: e2 :: tl).getD i 0 ≤ x) := by
            intro hcon
            exact absurd (lt_of_le_of_lt (le_trans hle hcon) hx) (lt_irrefl e1)
          rw [inBin_shift]
          unfold inBin
          rw [decide_eq_false hnot]
          simp
        rw [hk, List.range_succ_eq_map,
          @List.filter_cons_of_pos ℕ (fun i => inBin (e0 :: e1 :: e2 :: tl) i x) 0
            ((List.range ((e1 :: e2 :: tl).length - 1)).map Nat.succ) hbin0]
        have hnil :
            ((List.range ((e1 :: e2 :: tl).length - 1)).map Nat.succ).filter
              (fun i => inBin (e0 :: e1 :: e2 :: tl) i x) = [] := by
          rw [List.filter_map]
          have heq :
              (List.range ((e1 :: e2 :: tl).length - 1)).filter
                ((fun i => inBin (e0 :: e1 :: e2 :: tl) i x) ∘ Nat.succ) = [] := by
            rw [List.filter_eq_nil_iff]
            intro i hi
            have hi2 : i < (e1 :: e2 :: tl).length - 1 := List.mem_range.mp hi
            simp only [Function.comp]
            rw [hlater i hi2]
            simp
          rw [heq, List.map_nil]
        rw [hnil]
        rfl
      · -- x misses bin 0; the remaining bins are the bins of the tail edges
        have hx1 : e1 ≤ x := le_of_not_lt hx
        have hbin0 : inBin (e0 :: e1 :: e2 :: tl) 0 x = false := by
          simp [inBin_zero, hx]
        rw [hk, List.range_succ_eq_map,
          @List.filter_cons_of_neg ℕ (fun i => inBin (e0 :: e1 :: e2 :: tl) i x) 0
            ((List.range ((e1 :: e2 :: tl).length - 1)).map Nat.succ)
            (by simp [hbin0])]
        have hrest := ih hsrest (by simp) x (by simpa using hx1) hxlast
        rw [List.filter_map]
        have heq :
            (List.range ((e1 :: e2 :: tl).length - 1)).filter
              ((fun i => inBin (e0 :: e1 :: e2 :: tl) i x) ∘ Nat.succ) =
            (List.range ((e1 :: e2 :: tl).length - 1)).filter
              (fun i => inBin (e1 :: e2 :: tl) i x) := by
          apply List.filter_congr
          intro i _
          simp only [Function.comp]
          rw [inBin_shift]
        rw [heq, List.length_map]
        exact hrest

theorem hist_swap (data : List ℚ) (k : ℕ) (p : ℕ → ℚ → Bool) :
    ((List.range k).map (fun i => (data.filter (fun x => p i x)).length)).sum =
      (data.map (fun x => ((List.range k).filter (fun i => p i x)).length)).sum := by
  induction data with
  | nil => simp
  | cons a t iht =>
    have hstep : ∀ i, ((a :: t).filter (fun x => p i x)).length =
        (if p i a then 1 else 0) + (t.filter (fun x => p i x)).length := by
      intro i
      by_cases h : p i a <;> simp [List.filter_cons, h] <;> omega
    calc ((List.range k).map
          (fun i => ((a :: t).filter (fun x => p i x)).length)).sum
        = ((List.range k).map (fun i =>
            (if p i a then 1 else 0) + (t.filter (fun x => p i x)).length)).sum := by
          congr 1
          exact List.map_congr_left (fun i _ => hstep i)
      _ = ((List.range k).map (fun i => if p i a then 1 else 0)).sum +
            ((List.range k).map (fun i => (t.filter (fun x => p i x)).length)).sum := by
          exact sum_map_add_nat (List.range k) _ _
      _ = ((List.range k).filter (fun i => p i a)).length +
            (t.map (fun x => ((List.range k).filter (fun i => p i x)).length)).sum := by
          rw [sum_map_indicator, iht]
      _ = ((a :: t).map
            (fun x => ((List.range k).filter (fun i => p i x)).length)).sum := by
          simp

theorem npHistogram_sum (data edges : List ℚ)
    (hsort : edges.Sorted (fun a b => a ≤ b)) (hlen : 2 ≤ edges.length)
    (hcov : ∀ x ∈ data,
      edges.getD 0 0 ≤ x ∧ x ≤ edges.getD (edges.length - 1) 0) :
    (npHistogram data edges).sum = data.length := by
  unfold npHistogram
  rw [hist_swap]
  exact sum_map_one data _ (fun x hx =>
    binsHit_eq_one edges hsort hlen x (hcov x hx).1 (hcov x hx).2)

theorem histPercents_sum (data edges : List ℚ) (hne : data ≠ [])
    (hsort : edges.Sorted (fun a b => a ≤ b)) (hlen : 2 ≤ edges.length)
    (hcov : ∀ x ∈ data,
      edges.getD 0 0 ≤ x ∧ x ≤ edges.getD (edges.length - 1) 0) :
    (histPercents data edges).sum = 1 := by
  unfold histPercents
  rw [sum_map_natCast_div, npHistogram_sum data edges hsort hlen hcov]
  have hnz : ((data.length : ℕ) : ℚ) ≠ 0 := by
    simp [List.length_eq_zero, hne]
  exact div_self hnz

/-! Smoothing lemmas. -/

theorem smooth_sum (v : List ℚ) (fill : ℚ) :
    (v.map (fun x => if x = 0 then fill else x)).sum =
      v.sum + ((v.countP (fun x => decide (x = 0)) : ℕ) : ℚ) * fill := by
  induction v with
  | nil => simp
  | cons a t ih =>
    by_cases h : a = 0
    · simp [List.countP_cons, h, ih]
      ring
    · simp [List.countP_cons, h, ih]
      ring

theorem smoothZeros_ok (v : List ℚ) (m : ℚ)
    (hm : listMin (v.filter (fun x => decide (x ≠ 0))) = some m) :
    smoothZeros v =
      Except.ok (v.map (fun x => if x = 0 then smoothFillValue m else x)) := by
  unfold smoothZeros
  rw [hm]

theorem listMin_pos (v : List ℚ) (m : ℚ) (hnn : ∀ x ∈ v, 0 ≤ x)
    (hm : listMin (v.filter (fun x => decide (x ≠ 0))) = some m) :
    0 < m ∧ m ∈ v ∧ ∀ y ∈ v, 0 < y → m ≤ y := by
  have hs := listMin_spec _ m hm
  have hmv : m ∈ v := (List.mem_filter.mp hs.1).1
  have hmne : m ≠ 0 := by
    have := (List.mem_filter.mp hs.1).2
    simpa using this
  refine ⟨lt_of_le_of_ne (hnn m hmv) (Ne.symm hmne), hmv, ?_⟩
  intro y hy hypos
  exact hs.2 y (List.mem_filter.mpr ⟨hy, by simpa using ne_of_gt hypos⟩)

theorem smoothFillValue_pos (m : ℚ) (h : 0 < m) :
    0 < smoothFillValue m ∧ smoothFillValue m ≤ 1 / 10000 := by
  unfold smoothFillValue
  by_cases hc : m ≤ 1 / 10000
  · rw [if_pos hc]
    constructor
    · positivity
    · exact le_trans (div_le_self h.le (by norm_num)) hc
  · rw [if_neg hc]
    norm_num

theorem histPercents_nonneg (data edges : List ℚ) :
    ∀ x ∈ histPercents data edges, 0 ≤ x := by
  intro x hx
  unfold histPercents at hx
  obtain ⟨c, _, rfl⟩ := List.mem_map.mp hx
  positivity

theorem exists_nonzero_of_sum_one (v : List ℚ) (h : v.sum = 1) :
    v.filter (fun x => decide (x ≠ 0)) ≠ [] := by
  intro hnil
  have hall : ∀ x ∈ v, x = 0 := by
    intro x hx
    by_contra hne
    have hmem : x ∈ v.filter (fun x => decide (x ≠ 0)) :=
      List.mem_filter.mpr ⟨hx, by simpa using hne⟩
    rw [hnil] at hmem
    cases hmem
  have hz : v.sum = 0 := List.sum_eq_zero hall
  rw [h] at hz
  norm_num at hz

theorem getD_map_lt (v : List ℚ) (f : ℚ → ℚ) (i : ℕ) (hi : i < v.length) :
    (v.map f).getD i 0 = f (v.getD i 0) := by
  rw [List.getD_eq_getElem _ _ (by simpa using hi),
    List.getD_eq_getElem _ _ hi, List.getElem_map]

/-! Claim theorems. -/

/-- C5 (confirmed): in the zero-mass-bin smoothing applied to a nonnegative
mass vector, m is the smallest strictly-positive entry, every zero entry is
replaced by m / 10^6 when m is at most 1e-4 and by 1e-4 otherwise, and every
nonzero entry is left unchanged. -/
theorem smoothing_replacement_rule (v : List ℚ) (m : ℚ)
    (hnn : ∀ x ∈ v, 0 ≤ x)
    (hm : listMin (v.filter (fun x => decide (x ≠ 0))) = some m) :
    0 < m ∧ m ∈ v ∧ (∀ y ∈ v, 0 < y → m ≤ y) ∧
    ∃ w, smoothZeros v = Except.ok w ∧ w.length = v.length ∧
      ∀ i, i < v.length →
        (v.getD i 0 = 0 →
          w.getD i 0 = (if m ≤ 1 / 10000 then m / 10 ^ 6 else 1 / 10000)) ∧
        (v.getD i 0 ≠ 0 → w.getD i 0 = v.getD i 0) := by
  have hpos := listMin_pos v m hnn hm
  refine ⟨hpos.1, hpos.2.1, hpos.2.2, _, smoothZeros_ok v m hm, by simp, ?_⟩
  intro i hi
  rw [getD_map_lt v _ i hi]
  constructor
  · intro h0
    rw [if_pos h0]
    rfl
  · intro h0
    rw [if_neg h0]

/-- Witness for C5 at the concrete vector [0, 1/2] with m = 1/2. -/
theorem smoothing_replacement_rule_witness :
    0 < (1 / 2 : ℚ) ∧ (1 / 2 : ℚ) ∈ [(0 : ℚ), 1 / 2] ∧
    (∀ y ∈ [(0 : ℚ), 1 / 2], 0 < y → 1 / 2 ≤ y) ∧
    ∃ w, smoothZeros [(0 : ℚ), 1 / 2] = Except.ok w ∧
      w.length = ([(0 : ℚ), 1 / 2] : List ℚ).length ∧
      ∀ i, i < ([(0 : ℚ), 1 / 2] : List ℚ).length →
        (([(0 : ℚ), 1 / 2] : List ℚ).getD i 0 = 0 →
          w.getD i 0 =
            (if (1 / 2 : ℚ) ≤ 1 / 10000 then (1 / 2 : ℚ) / 10 ^ 6
             else 1 / 10000)) ∧
        (([(0 : ℚ), 1 / 2] : List ℚ).getD i 0 ≠ 0 →
          w.getD i 0 = ([(0 : ℚ), 1 / 2] : List ℚ).getD i 0) :=
  smoothing_replacement_rule [(0 : ℚ), 1 / 2] (1 / 2) (by norm_num)
    (by norm_num [listMin, List.filter])

/-- C2 (amended): for a nonempty sample histogrammed on sorted covering
edges, the smoothed mass vector exists, every entry is strictly positive,
and its sum is exactly 1 + z * fill where z is the number of empty bins and
fill the smoothing replacement value (positive and at most 1e-4); so the sum
is exactly 1 precisely when no bin is empty, and exceeds 1 by z * fill
otherwise. -/
theorem mass_vector_smoothing (data edges : List ℚ) (hne : data ≠ [])
    (hsort : edges.Sorted (fun a b => a ≤ b)) (hlen : 2 ≤ edges.length)
    (hcov : ∀ x ∈ data,
      edges.getD 0 0 ≤ x ∧ x ≤ edges.getD (edges.length - 1) 0) :
    ∃ w m, smoothZeros (histPercents data edges) = Except.ok w ∧
      listMin ((histPercents data edges).filter (fun x => decide (x ≠ 0))) =
        some m ∧
      (∀ y ∈ w, 0 < y) ∧ 0 < smoothFillValue m ∧
      smoothFillValue m ≤ 1 / 10000 ∧
      w.sum = 1 +
        (((histPercents data edges).countP (fun x => decide (x = 0)) : ℕ) : ℚ) *
          smoothFillValue m := by
  have hsum1 := histPercents_sum data edges hne hsort hlen hcov
  have hfne := exists_nonzero_of_sum_one _ hsum1
  obtain ⟨m, hm⟩ := listMin_isSome _ hfne
  have hpos := listMin_pos _ m (histPercents_nonneg data edges) hm
  obtain ⟨hfillpos, hfillle⟩ := smoothFillValue_pos m hpos.1
  refine ⟨_, m, smoothZeros_ok _ m hm, hm, ?_, hfillpos, hfillle, ?_⟩
  · intro y hy
    obtain ⟨x, hxv, rfl⟩ := List.mem_map.mp hy
    by_cases h0 : x = 0
    · rw [if_pos h0]
      exact hfillpos
    · rw [if_neg h0]
      exact lt_of_le_of_ne (histPercents_nonneg data edges x hxv) (Ne.symm h0)
  · rw [smooth_sum, hsum1]

/-- Witness for C2 at the sample [1/2, 3/2] on edges [0, 1, 2, 3, 4]. -/
theorem mass_vector_smoothing_witness :
    ∃ w m,
      smoothZeros (histPercents [(1 : ℚ) / 2, 3 / 2] [0, 1, 2, 3, 4]) =
        Except.ok w ∧
      listMin ((histPercents [(1 : ℚ) / 2, 3 / 2] [0, 1, 2, 3, 4]).filter
        (fun x => decide (x ≠ 0))) = some m ∧
      (∀ y ∈ w, 0 < y) ∧ 0 < smoothFillValue m ∧
      smoothFillValue m ≤ 1 / 10000 ∧
      w.sum = 1 +
        (((histPercents [(1 : ℚ) / 2, 3 / 2] [0, 1, 2, 3, 4]).countP
          (fun x => decide (x = 0)) : ℕ) : ℚ) * smoothFillValue m :=
  mass_vector_smoothing [(1 : ℚ) / 2, 3 / 2] [0, 1, 2, 3, 4]
    (by simp) (by norm_num [List.sorted_cons]) (by norm_num)
    (by norm_num [List.getD_cons_zero, List.getD_cons_succ])

/-- C2 counterexample: the smoothed control mass vector of the sample
[1/2, 3/2] on the shared edges [0, 1, 2, 3, 4] is
[1/2, 1/2, 1/10000, 1/10000]; it sums to 5001/5000, exceeding 1 by exactly
1/5000, which is the number of empty bins times the 1e-4 replacement value
and more than 10^9 times larger than double-precision rounding tolerance:
the vector does not sum to 1 within floating tolerance, and the deviation
grows with the number of empty bins rather than being independent of it. -/
theorem mass_vector_sum_counterexample :
    histPercents [(1 : ℚ) / 2, 3 / 2] [0, 1, 2, 3, 4] =
      [1 / 2, 1 / 2, 0, 0] ∧
    smoothZeros [(1 : ℚ) / 2, 1 / 2, 0, 0] =
      Except.ok [1 / 2, 1 / 2, 1 / 10000, 1 / 10000] ∧
    ([(1 : ℚ) / 2, 1 / 2, 1 / 10000, 1 / 10000] : List ℚ).sum = 5001 / 5000 ∧
    (5001 / 5000 : ℚ) - 1 = 1 / 5000 ∧ ((1 : ℚ) / 5000) > 1 / 2 ^ 40 := by
  refine ⟨?_, ?_, ?_, ?_, ?_⟩
  · norm_num [histPercents, npHistogram, inBin, List.range_succ, List.filter]
  · norm_num [smoothZeros, listMin, List.filter, smoothFillValue]
  · norm_num
  · norm_num
  · norm_num

theorem some_geConclusion_spec (p a : ℚ) :
    (some (if p ≥ a then "OK" else "FAILED") = some "OK" ↔ p ≥ a) ∧
      (some (if p ≥ a then "OK" else "FAILED") = some "FAILED" ↔ ¬p ≥ a) := by
  by_cases h : p ≥ a <;> simp [h]

theorem some_ltConclusion_spec (v t : ℚ) :
    (some (if v < t then "OK" else "FAILED") = some "OK" ↔ v < t) ∧
      (some (if v < t then "OK" else "FAILED") = some "FAILED" ↔ ¬v < t) := by
  by_cases h : v < t <;> simp [h]

/-- C4 (amended): a quantile cutoff keyword is rejected at construction
only for MannWhitney, whose dataclass declares no q field; KolmogorovSmirnov
declares q with default False, accepts it at construction, and silently
ignores it: the call computes the same result for any two q flags. -/
theorem quantile_flag_support (env : NumpyEnv) (control treatment : List ℚ)
    (featureName : String) (alpha : ℚ) (q1 q2 : QFlag) :
    dataclassInit mannWhitneyFields ["control_data", "treatment_data", "q"] =
      Except.error (PyError.typeError
        "init got an unexpected keyword argument q") ∧
    dataclassInit kolmogorovSmirnovFields
      ["control_data", "treatment_data", "q"] = Except.ok () ∧
    kolmogorovSmirnovCall env control treatment featureName alpha q1 =
      kolmogorovSmirnovCall env control treatment featureName alpha q2 :=
  ⟨rfl, rfl, rfl⟩

/-- C4 counterexample: KolmogorovSmirnov accepts the quantile flag at
construction and its call returns exactly the same result with q = 0.99 as
with the default q = False: the unsupported cutoff is silently ignored, not
rejected at configuration time. -/
theorem quantile_flag_ignored_counterexample :
    dataclassInit kolmogorovSmirnovFields
      ["control_data", "treatment_data", "q"] = Except.ok () ∧
    kolmogorovSmirnovCall env0 [1, 2] [3, 4] "f" (1 / 20)
        (QFlag.val (99 / 100)) =
      kolmogorovSmirnovCall env0 [1, 2] [3, 4] "f" (1 / 20)
        (QFlag.bool false) :=
  ⟨rfl, rfl⟩

/-- C8 (confirmed): Kolmogorov-Smirnov and Mann-Whitney hand the two raw
samples directly to the two-sample test routine (no quantile trimming) and
conclude OK exactly when the returned p-value is at least alpha, FAILED
otherwise; the Mann-Whitney facts are about the report row its call builds
before its return statement raises (see C1). -/
theorem ks_mw_raw_alpha_rule (env : NumpyEnv) (control treatment : List ℚ)
    (featureName : String) (alphaK alphaM : ℚ) (q : QFlag) :
    (kolmogorovSmirnovCall env control treatment featureName alphaK q).value =
      (env.ks2samp control treatment).2 ∧
    (kolmogorovSmirnovCall env control treatment featureName
        alphaK q).dataframe.p_value =
      Cell.num (env.ks2samp control treatment).2 ∧
    (kolmogorovSmirnovCall env control treatment featureName
        alphaK q).dataframe.statistics = (env.ks2samp control treatment).1 ∧
    ((kolmogorovSmirnovCall env control treatment featureName
        alphaK q).dataframe.conclusion = "OK" ↔
      (env.ks2samp control treatment).2 ≥ alphaK) ∧
    ((kolmogorovSmirnovCall env control treatment featureName
        alphaK q).dataframe.conclusion = "FAILED" ↔
      ¬(env.ks2samp control treatment).2 ≥ alphaK) ∧
    (mannWhitneyFrame env control treatment featureName alphaM).p_value =
      Cell.num (env.mannwhitneyu control treatment).2 ∧
    (mannWhitneyFrame env control treatment featureName alphaM).statistics =
      (env.mannwhitneyu control treatment).1 ∧
    ((mannWhitneyFrame env control treatment featureName alphaM).conclusion =
        "OK" ↔ (env.mannwhitneyu control treatment).2 ≥ alphaM) ∧
    ((mannWhitneyFrame env control treatment featureName alphaM).conclusion =
        "FAILED" ↔ ¬(env.mannwhitneyu control treatment).2 ≥ alphaM) := by
  refine ⟨rfl, rfl, rfl, ?_, ?_, rfl, rfl, ?_, ?_⟩
  · exact (geConclusion_spec (env.ks2samp control treatment).2 alphaK).1
  · exact (geConclusion_spec (env.ks2samp control treatment).2 alphaK).2
  · exact (geConclusion_spec (env.mannwhitneyu control treatment).2 alphaM).1
  · exact (geConclusion_spec (env.mannwhitneyu control treatment).2 alphaM).2

/-- C9 (confirmed): the Wasserstein variant trims each sample independently
to values strictly below its own q-quantile exactly when the flag is
truthy, divides the distance between the (possibly trimmed) samples by the
maximum of the (possibly trimmed) control standard deviation and 0.001, and
concludes OK exactly when the normalized distance is below 0.1. -/
theorem wasserstein_normalization_rule (env : NumpyEnv)
    (control treatment : List ℚ) (featureName : String) (q : QFlag) :
    (wassersteinCall env control treatment featureName q).value =
      env.wassersteinDistance (usedData env control q)
          (usedData env treatment q) /
        max (env.sqrt (npVar (usedData env control q))) (1 / 1000) ∧
    ((wassersteinCall env control treatment featureName q).conclusion =
        some "OK" ↔
      (wassersteinCall env control treatment featureName q).value < 1 / 10) ∧
    ((wassersteinCall env control treatment featureName q).conclusion =
        some "FAILED" ↔
      ¬(wassersteinCall env control treatment featureName q).value < 1 / 10) ∧
    usedData env control q =
      (if q.truthy = true
       then control.filter (fun x => decide (x < env.quantile control q.toRat))
       else control) ∧
    usedData env treatment q =
      (if q.truthy = true
       then treatment.filter
         (fun x => decide (x < env.quantile treatment q.toRat))
       else treatment) := by
  refine ⟨rfl, ?_, ?_, rfl, rfl⟩
  · exact (some_ltConclusion_spec
      (wassersteinCall env control treatment featureName q).value (1 / 10)).1
  · exact (some_ltConclusion_spec
      (wassersteinCall env control treatment featureName q).value (1 / 10)).2

theorem klCall_ok (env : NumpyEnv) (control treatment : List ℚ)
    (featureName : String) (border_value : ℚ) (q : QFlag) (rs cs : List ℚ)
    (hr : smoothZeros (histPercents (usedData env control q)
      (sharedEdges env (usedData env control q) (usedData env treatment q))) =
      Except.ok rs)
    (hc : smoothZeros (histPercents (usedData env treatment q)
      (sharedEdges env (usedData env control q) (usedData env treatment q))) =
      Except.ok cs) :
    klDivergenceCall env control treatment featureName border_value q =
      Except.ok
        { dataframe :=
            { test_datetime := env.now
              feature_name := featureName
              feature_type := "numerical"
              control_mean := npMean control
              treatment_mean := npMean treatment
              control_std := env.sqrt (npVar control)
              treatment_std := env.sqrt (npVar treatment)
              test_name := "KL Divergence"
              p_value := Cell.str "-"
              statistics := scipyEntropy env.log rs cs
              conclusion :=
                if scipyEntropy env.log rs cs < border_value then "OK"
                else "FAILED" }
          value := scipyEntropy env.log rs cs
          conclusion := none } := by
  simp only [klDivergenceCall]
  rw [hr, hc]
  rfl

theorem psiCall_ok (env : NumpyEnv) (control treatment : List ℚ)
    (featureName : String) (q : QFlag) (rs cs : List ℚ)
    (hr : smoothZeros (histPercents (usedData env control q)
      (sharedEdges env (usedData env control q) (usedData env treatment q))) =
      Except.ok rs)
    (hc : smoothZeros (histPercents (usedData env treatment q)
      (sharedEdges env (usedData env control q) (usedData env treatment q))) =
      Except.ok cs) :
    psiCall env control treatment featureName q =
      Except.ok
        { dataframe :=
            dataframe_report env.now featureName "numerical"
              (npMean (usedData env control q))
              (npMean (usedData env treatment q))
              (env.sqrt (npVar (usedData env control q)))
              (env.sqrt (npVar (usedData env treatment q)))
              (if q.truthy then some q.toRat else none)
              "Population Stability Index"
              (((rs.zip cs).map
                (fun p => (p.1 - p.2) * env.log (p.1 / p.2))).sum)
              (if ((rs.zip cs).map
                  (fun p => (p.1 - p.2) * env.log (p.1 / p.2))).sum < 1 / 10
               then "OK" else "FAILED")
          value :=
            ((rs.zip cs).map (fun p => (p.1 - p.2) * env.log (p.1 / p.2))).sum
          conclusion :=
            some (if ((rs.zip cs).map
                (fun p => (p.1 - p.2) * env.log (p.1 / p.2))).sum < 1 / 10
              then "OK" else "FAILED") } := by
  simp only [psiCall]
  rw [hr, hc]
  rfl

/-- C1 (code bug): no invocation of MannWhitney ever returns a result
record: its return statement passes the keyword statistics_result, which
the StatTestResult dataclass does not declare, so the dataclass initializer
raises TypeError; moreover KolmogorovSmirnov and KLDivergence return
records whose conclusion field is None rather than a complete record, as
the concrete evaluations below show. -/
theorem one_complete_record_code_bug :
    mannWhitneyCall env0 [1, 2, 3] [4, 5, 6] "f" (1 / 20) =
      Except.error (PyError.typeError
        "init got an unexpected keyword argument statistics_result") ∧
    (kolmogorovSmirnovCall env0 [1, 2, 3] [4, 5, 6] "f" (1 / 20)
      (QFlag.bool false)).conclusion = none ∧
    (klDivergenceCall env0 [1, 1, 2] [1, 2, 2] "f" (1 / 10)
      (QFlag.bool false)).map StatTestResult.conclusion = Except.ok none := by
  refine ⟨rfl, rfl, ?_⟩
  have hr : smoothZeros (histPercents
      (usedData env0 [1, 1, 2] (QFlag.bool false))
      (sharedEdges env0 (usedData env0 [1, 1, 2] (QFlag.bool false))
        (usedData env0 [1, 2, 2] (QFlag.bool false)))) =
      Except.ok [2 / 3] := by
    norm_num [usedData, QFlag.truthy, sharedEdges, env0, histPercents,
      npHistogram, inBin, List.range_succ, List.filter, smoothZeros, listMin,
      smoothFillValue]
  have hc : smoothZeros (histPercents
      (usedData env0 [1, 2, 2] (QFlag.bool false))
      (sharedEdges env0 (usedData env0 [1, 1, 2] (QFlag.bool false))
        (usedData env0 [1, 2, 2] (QFlag.bool false)))) =
      Except.ok [1 / 3] := by
    norm_num [usedData, QFlag.truthy, sharedEdges, env0, histPercents,
      npHistogram, inBin, List.range_succ, List.filter, smoothZeros, listMin,
      smoothFillValue]
  rw [klCall_ok env0 [1, 1, 2] [1, 2, 2] "f" (1 / 10) (QFlag.bool false)
    [2 / 3] [1 / 3] hr hc]
  rfl

/-- C6 (confirmed): whenever the PSI call returns, its statistic is the sum
over bins of (control mass - treatment mass) times the log of their ratio,
computed on the smoothed mass vectors, and its conclusion is OK exactly
when that statistic is below 0.1 and FAILED otherwise. -/
theorem psi_statistic_rule (env : NumpyEnv) (control treatment : List ℚ)
    (featureName : String) (q : QFlag) (rs cs : List ℚ)
    (hr : smoothZeros (histPercents (usedData env control q)
      (sharedEdges env (usedData env control q) (usedData env treatment q))) =
      Except.ok rs)
    (hc : smoothZeros (histPercents (usedData env treatment q)
      (sharedEdges env (usedData env control q) (usedData env treatment q))) =
      Except.ok cs) :
    ∃ r, psiCall env control treatment featureName q = Except.ok r ∧
      r.value =
        ((rs.zip cs).map (fun p => (p.1 - p.2) * env.log (p.1 / p.2))).sum ∧
      (r.conclusion = some "OK" ↔ r.value < 1 / 10) ∧
      (r.conclusion = some "FAILED" ↔ ¬r.value < 1 / 10) := by
  refine ⟨_, psiCall_ok env control treatment featureName q rs cs hr hc,
    rfl, ?_, ?_⟩
  · exact (some_ltConclusion_spec
      (((rs.zip cs).map (fun p => (p.1 - p.2) * env.log (p.1 / p.2))).sum)
      (1 / 10)).1
  · exact (some_ltConclusion_spec
      (((rs.zip cs).map (fun p => (p.1 - p.2) * env.log (p.1 / p.2))).sum)
      (1 / 10)).2

/-- Witness for C6 with the concrete oracle environment, samples [1/2] and
[1/2], and the untrimmed path, where both smoothed vectors are [1]. -/
theorem psi_statistic_rule_witness :
    ∃ r, psiCall env0 [(1 : ℚ) / 2] [(1 : ℚ) / 2] "f" (QFlag.bool false) =
        Except.ok r ∧
      r.value =
        ((([(1 : ℚ)].zip [(1 : ℚ)]).map
          (fun p => (p.1 - p.2) * env0.log (p.1 / p.2))).sum) ∧
      (r.conclusion = some "OK" ↔ r.value < 1 / 10) ∧
      (r.conclusion = some "FAILED" ↔ ¬r.value < 1 / 10) :=
  psi_statistic_rule env0 [(1 : ℚ) / 2] [(1 : ℚ) / 2] "f" (QFlag.bool false)
    [1] [1]
    (by norm_num [usedData, QFlag.truthy, sharedEdges, env0, histPercents,
      npHistogram, inBin, List.range_succ, List.filter, smoothZeros, listMin,
      smoothFillValue])
    (by norm_num [usedData, QFlag.truthy, sharedEdges, env0, histPercents,
      npHistogram, inBin, List.range_succ, List.filter, smoothZeros, listMin,
      smoothFillValue])

/-- C7 (confirmed): whenever the KL Divergence call returns, its statistic
is scipy entropy of the smoothed control mass vector against the smoothed
treatment mass vector (control as the true distribution), the report row
concludes OK exactly when the statistic is below the configured
border_value (whose dataclass default is 0.1), and the row reports the
p_value column as the not-applicable sentinel. -/
theorem kl_statistic_rule (env : NumpyEnv) (control treatment : List ℚ)
    (featureName : String) (border_value : ℚ) (q : QFlag) (rs cs : List ℚ)
    (hr : smoothZeros (histPercents (usedData env control q)
      (sharedEdges env (usedData env control q) (usedData env treatment q))) =
      Except.ok rs)
    (hc : smoothZeros (histPercents (usedData env treatment q)
      (sharedEdges env (usedData env control q) (usedData env treatment q))) =
      Except.ok cs) :
    ∃ r, klDivergenceCall env control treatment featureName border_value q =
        Except.ok r ∧
      r.value = scipyEntropy env.log rs cs ∧
      (r.dataframe.conclusion = "OK" ↔ r.value < border_value) ∧
      (r.dataframe.conclusion = "FAILED" ↔ ¬r.value < border_value) ∧
      r.dataframe.p_value = Cell.str "-" ∧
      r.dataframe.statistics = r.value := by
  refine ⟨_, klCall_ok env control treatment featureName border_value q
    rs cs hr hc, rfl, ?_, ?_, rfl, rfl⟩
  · exact (ltConclusion_spec (scipyEntropy env.log rs cs) border_value).1
  · exact (ltConclusion_spec (scipyEntropy env.log rs cs) border_value).2

/-- Witness for C7 with the concrete oracle environment, samples [1/2] and
[1/2], border value 1/10, and the untrimmed path. -/
theorem kl_statistic_rule_witness :
    ∃ r, klDivergenceCall env0 [(1 : ℚ) / 2] [(1 : ℚ) / 2] "f" (1 / 10)
        (QFlag.bool false) = Except.ok r ∧
      r.value = scipyEntropy env0.log [1] [1] ∧
      (r.dataframe.conclusion = "OK" ↔ r.value < 1 / 10) ∧
      (r.dataframe.conclusion = "FAILED" ↔ ¬r.value < 1 / 10) ∧
      r.dataframe.p_value = Cell.str "-" ∧
      r.dataframe.statistics = r.value :=
  kl_statistic_rule env0 [(1 : ℚ) / 2] [(1 : ℚ) / 2] "f" (1 / 10)
    (QFlag.bool false) [1] [1]
    (by norm_num [usedData, QFlag.truthy, sharedEdges, env0, histPercents,
      npHistogram, inBin, List.range_succ, List.filter, smoothZeros, listMin,
      smoothFillValue])
    (by norm_num [usedData, QFlag.truthy, sharedEdges, env0, histPercents,
      npHistogram, inBin, List.range_succ, List.filter, smoothZeros, listMin,
      smoothFillValue])

theorem getD_map_range (size : ℕ) (f : ℕ → ℚ) (i : ℕ) (hi : i < size) :
    ((List.range size).map f).getD i 0 = f i := by
  rw [List.getD_eq_getElem _ _ (by simpa using hi), List.getElem_map,
    List.getElem_range]

/-- C3 (amended): mean_bootstrap returns exactly size resample means
(10000 by the Python default argument), each the mean of exactly
int(len(data) * 0.2) = len(data) / 5 draws taken from the sample with
replacement; the claimed round(0.2 n) is corrected to truncation. -/
theorem bootstrap_resampler_contract (rng : ℕ → ℕ → ℕ) (data : List ℚ)
    (size : ℕ) (h : data ≠ []) :
    (mean_bootstrap rng data size).length = size ∧
    ∀ i, i < size → ∃ draws : List ℚ,
      draws.length = bootstrapDrawCount data.length ∧
      (∀ x ∈ draws, x ∈ data) ∧
      (mean_bootstrap rng data size).getD i 0 = npMean draws := by
  constructor
  · simp [mean_bootstrap]
  · intro i hi
    refine ⟨npChoice (rng i) data (bootstrapDrawCount data.length),
      ?_, ?_, ?_⟩
    · simp [npChoice]
    · intro x hx
      obtain ⟨j, _, rfl⟩ := List.mem_map.mp hx
      have hlen : 0 < data.length := List.length_pos.mpr h
      have hmod : rng i j % data.length < data.length := Nat.mod_lt _ hlen
      rw [List.getD_eq_getElem _ _ hmod]
      exact List.getElem_mem hmod
    · unfold mean_bootstrap
      exact getD_map_range size _ i hi

/-- Witness for C3 with the constant index oracle, the sample [1, 2, 3]
and two resamples. -/
theorem bootstrap_resampler_contract_witness :
    (mean_bootstrap (fun _ _ => 0) [(1 : ℚ), 2, 3] 2).length = 2 ∧
    ∀ i, i < 2 → ∃ draws : List ℚ,
      draws.length = bootstrapDrawCount ([(1 : ℚ), 2, 3] : List ℚ).length ∧
      (∀ x ∈ draws, x ∈ [(1 : ℚ), 2, 3]) ∧
      (mean_bootstrap (fun _ _ => 0) [(1 : ℚ), 2, 3] 2).getD i 0 =
        npMean draws :=
  bootstrap_resampler_contract (fun _ _ => 0) [(1 : ℚ), 2, 3] 2 (by simp)

/-- C3 counterexample: for a sample of size 3, the source draws
int(3 * 0.2) = 0 values per resample, not round(0.2 * 3) = 1 as claimed;
the resample the code draws is the empty list. -/
theorem bootstrap_drawcount_counterexample :
    bootstrapDrawCount 3 = 0 ∧ claimedDrawCount 3 = 1 ∧
    npChoice (fun _ => 0) [(1 : ℚ), 2, 3] (bootstrapDrawCount 3) = [] ∧
    bootstrapDrawCount 3 ≠ claimedDrawCount 3 := by
  have h2 : round ((3 : ℚ) / 5) = 1 := by
    rw [round_eq, show (3 : ℚ) / 5 + 1 / 2 = 11 / 10 by norm_num]
    rw [Int.floor_eq_iff]
    constructor <;> norm_num
  have h3 : claimedDrawCount 3 = 1 := by
    unfold claimedDrawCount
    rw [show ((3 : ℕ) : ℚ) / 5 = (3 : ℚ) / 5 by norm_num, h2]
    rfl
  exact ⟨rfl, h3, rfl, by rw [h3]; decide⟩

/-! Heap frame lemmas for C10. -/

theorem Heap.get_alloc_lt (h : Heap) (v : List ℚ) (i : ℕ)
    (hi : i < h.arrays.length) : (h.alloc v).1.get i = h.get i := by
  unfold Heap.alloc Heap.get
  simp only
  rw [List.getD_eq_getElem _ _ (by simp; omega),
    List.getD_eq_getElem _ _ hi, List.getElem_append_left hi]

theorem Heap.alloc_length (h : Heap) (v : List ℚ) :
    (h.alloc v).1.arrays.length = h.arrays.length + 1 := by
  simp [Heap.alloc]

theorem Heap.get_mutate_ne (h : Heap) (j : ℕ) (v : List ℚ) (i : ℕ)
    (hne : j ≠ i) : (h.mutate j v).get i = h.get i := by
  unfold Heap.mutate Heap.get
  simp only
  rw [List.getD_eq_getElem?_getD, List.getD_eq_getElem?_getD,
    List.getElem?_set_ne hne]

theorem smoothZerosInPlace_frame (h : Heap) (j : ℕ) (h' : Heap)
    (hok : smoothZerosInPlace h j = Except.ok h') (i : ℕ) (hne : j ≠ i) :
    h'.get i = h.get i ∧ h'.arrays.length = h.arrays.length := by
  unfold smoothZerosInPlace at hok
  cases hsz : smoothZeros (h.get j) with
  | error e =>
    rw [hsz] at hok
    cases hok
  | ok w =>
    rw [hsz] at hok
    cases hok
    exact ⟨Heap.get_mutate_ne h j w i hne, by simp [Heap.mutate]⟩

theorem klHeapStage_facts (env : NumpyEnv) (h : Heap) (cId tId : ℕ)
    (q : QFlag) :
    (∀ i, i < h.arrays.length →
      (klHeapStage env h cId tId q).1.get i = h.get i) ∧
    (klHeapStage env h cId tId q).2.1 = h.arrays.length + 2 ∧
    (klHeapStage env h cId tId q).2.2 = h.arrays.length + 3 := by
  refine ⟨?_, ?_, ?_⟩
  · intro i hi
    simp only [klHeapStage]
    rw [Heap.get_alloc_lt, Heap.get_alloc_lt, Heap.get_alloc_lt,
      Heap.get_alloc_lt _ _ _ hi]
    · rw [Heap.alloc_length]; omega
    · rw [Heap.alloc_length, Heap.alloc_length]; omega
    · rw [Heap.alloc_length, Heap.alloc_length, Heap.alloc_length]; omega
  · simp [klHeapStage, Heap.alloc]
  · simp [klHeapStage, Heap.alloc]

theorem klCallHeap_preserves (env : NumpyEnv) (h : Heap) (cId tId : ℕ)
    (q : QFlag) (i : ℕ) (hi : i < h.arrays.length) :
    (klCallHeap env h cId tId q).1.get i = h.get i := by
  obtain ⟨hget, hid1, hid2⟩ := klHeapStage_facts env h cId tId q
  have hne1 : (klHeapStage env h cId tId q).2.1 ≠ i := by omega
  have hne2 : (klHeapStage env h cId tId q).2.2 ≠ i := by omega
  unfold klCallHeap
  cases hs1 : smoothZerosInPlace (klHeapStage env h cId tId q).1
      (klHeapStage env h cId tId q).2.1 with
  | error e =>
    exact hget i hi
  | ok h5 =>
    obtain ⟨hg5, _⟩ := smoothZerosInPlace_frame _ _ _ hs1 i hne1
    show (match smoothZerosInPlace h5 (klHeapStage env h cId tId q).2.2 with
      | Except.error e => (h5, Except.error e)
      | Except.ok h6 =>
        (h6, Except.ok (scipyEntropy env.log
          (h6.get (klHeapStage env h cId tId q).2.1)
          (h6.get (klHeapStage env h cId tId q).2.2)))).1.get i = h.get i
    cases hs2 : smoothZerosInPlace h5 (klHeapStage env h cId tId q).2.2 with
    | error e =>
      exact hg5.trans (hget i hi)
    | ok h6 =>
      obtain ⟨hg6, _⟩ := smoothZerosInPlace_frame _ _ _ hs2 i hne2
      exact hg6.trans (hg5.trans (hget i hi))

theorem wassersteinCallHeap_preserves (env : NumpyEnv) (h : Heap)
    (cId tId : ℕ) (q : QFlag) (i : ℕ) (hi : i < h.arrays.length) :
    (wassersteinCallHeap env h cId tId q).1.get i = h.get i := by
  simp only [wassersteinCallHeap]
  rw [Heap.get_alloc_lt, Heap.get_alloc_lt _ _ _ hi]
  rw [Heap.alloc_length]
  omega

/-- C10 (confirmed): the KL Divergence call (whose binning and smoothing
block PSI shares verbatim) and the Wasserstein call leave the two input
sample arrays in the store unchanged: the in-place np.place replacement
touches only the freshly allocated histogram mass arrays. -/
theorem variants_do_not_mutate_inputs (env : NumpyEnv) (h : Heap)
    (cId tId : ℕ) (q : QFlag) (hc : cId < h.arrays.length)
    (ht : tId < h.arrays.length) :
    ((klCallHeap env h cId tId q).1.get cId = h.get cId ∧
      (klCallHeap env h cId tId q).1.get tId = h.get tId) ∧
    ((wassersteinCallHeap env h cId tId q).1.get cId = h.get cId ∧
      (wassersteinCallHeap env h cId tId q).1.get tId = h.get tId) :=
  ⟨⟨klCallHeap_preserves env h cId tId q cId hc,
    klCallHeap_preserves env h cId tId q tId ht⟩,
   ⟨wassersteinCallHeap_preserves env h cId tId q cId hc,
    wassersteinCallHeap_preserves env h cId tId q tId ht⟩⟩

/-- Witness for C10 on a concrete two-array store. -/
theorem variants_do_not_mutate_inputs_witness :
    ((klCallHeap env0 (Heap.mk [[1, 2], [3, 4]]) 0 1 (QFlag.bool false)).1.get
        0 = (Heap.mk [[1, 2], [3, 4]]).get 0 ∧
      (klCallHeap env0 (Heap.mk [[1, 2], [3, 4]]) 0 1 (QFlag.bool false)).1.get
        1 = (Heap.mk [[1, 2], [3, 4]]).get 1) ∧
    ((wassersteinCallHeap env0 (Heap.mk [[1, 2], [3, 4]]) 0 1
        (QFlag.bool false)).1.get 0 = (Heap.mk [[1, 2], [3, 4]]).get 0 ∧
      (wassersteinCallHeap env0 (Heap.mk [[1, 2], [3, 4]]) 0 1
        (QFlag.bool false)).1.get 1 = (Heap.mk [[1, 2], [3, 4]]).get 1) :=
  variants_do_not_mutate_inputs env0 (Heap.mk [[1, 2], [3, 4]]) 0 1
    (QFlag.bool false) (by simp) (by simp)

end Pydrifter
